import Mathlib

/-!
Verification of the txtop refresh/retry/classification pipeline.

This file is a shallow embedding of the core of the txtop terminal
dashboard (the 2025 revision of its single main source file): the
connection retry/backoff schedule, the mempool drain and transaction
classifier, the sort/truncate/render stage, the render diff gate, the
pause toggle and the bounded log buffer.  Machine integers are modelled
as Nat/Int with explicit wrap-around where Go overflow semantics matter
(the backoff delay is computed in int64 nanoseconds).  Functions that can
fail or panic in Go return Except values.
-/

namespace Txtop

/-! ## Log ring buffer

Embeds the method LogBuffer.Write: append the written line, then keep
only the last maxLines lines when the capacity is exceeded. -/

/-- One Write call on the log buffer: Go appends the new line and, when
the length exceeds maxLines, reslices to the last maxLines entries. -/
def logWrite (maxLines : Nat) (lines : List String) (p : String) : List String :=
  let l := lines ++ [p]
  if l.length > maxLines then l.drop (l.length - maxLines) else l

/-- State of the buffer after a sequence of Write calls starting empty. -/
def logWriteAll (maxLines : Nat) (ws : List String) : List String :=
  ws.foldl (logWrite maxLines) []

/-! ## Pause toggle

The Go flag paused is an int32 holding 0 or 1.  togglePaused runs a
compare-and-swap loop that xors the current value with 1 and returns
whether the new value is 1; in this sequential model the swap succeeds at
once, so one call is the xor itself. -/

/-- Embeds isPaused: the flag reads as paused exactly when it holds 1. -/
def isPaused (p : Nat) : Bool := p == 1

/-- Embeds togglePaused: returns the Go return value (new value is 1)
together with the new flag value. -/
def togglePaused (p : Nat) : Bool × Nat :=
  let next := p ^^^ 1
  (next == 1, next)

/-! ## Render diff gate

Embeds the guard inside startRefreshLoop: the freshly assembled text is
accepted (stored and drawn) exactly when it is non-empty and differs from
the stored text of the last accepted render. -/

/-- One evaluation of the diff gate: first component says whether a
redraw is triggered, second is the stored text afterwards. -/
def renderGate (stored newText : String) : Bool × String :=
  if newText ≠ "" ∧ newText ≠ stored then (true, newText) else (false, stored)

/-! ## Connection backoff schedule

GetConnection retries dialing up to Retries additional times.  Before
attempt k (k starting at 1) it sleeps
  min(time.Duration(1 shifted left by k)*time.Second,
      time.Duration(MaxBackoff)*time.Second).
time.Duration is int64 nanoseconds, so the shift and the multiplication
wrap around at 2 to the 64th; a shift count of 64 or more yields 0 in Go;
time.Sleep treats a non-positive duration as no sleep. -/

/-- Interpret an integer as a wrapped twos-complement int64 value. -/
def wrap64 (n : Int) : Int := (n + 2 ^ 63) % 2 ^ 64 - 2 ^ 63

/-- The Go expression time.Duration(1 shifted left by k): an int64 shift,
giving 0 once the shift count reaches the word size. -/
def goDurOne (k : Nat) : Int := if k < 64 then wrap64 ((2 : Int) ^ k) else 0

/-- Nanoseconds in time.Second. -/
def nsPerSecond : Int := 1000000000

/-- The argument passed to time.Sleep before a retry attempt: the min of
the wrapped exponential duration and the wrapped MaxBackoff duration. -/
def backoffDelay (k maxBackoff : Nat) : Int :=
  min (wrap64 (goDurOne k * nsPerSecond)) (wrap64 ((maxBackoff : Int) * nsPerSecond))

/-- Nanoseconds actually slept by time.Sleep: non-positive durations
return immediately. -/
def goSleep (d : Int) : Int := max 0 d

/-- Nanoseconds slept before attempt k of the GetConnection loop: the
loop only sleeps when attempt is positive. -/
def sleepBeforeAttempt (k maxBackoff : Nat) : Int :=
  if k = 0 then 0 else goSleep (backoffDelay k maxBackoff)

/-- Number of attempts the GetConnection loop performs, given the dial
outcome of each attempt index: it stops after the first success and
otherwise performs attempts 0 up to retries. -/
def connAttemptCount (retries : Nat) (dial : Nat → Bool) : Nat :=
  match (List.range (retries + 1)).findIdx? (fun k => dial k) with
  | some i => i + 1
  | none => retries + 1

/-- The sleeps performed by one GetConnection call, in attempt order. -/
def connSleeps (retries maxBackoff : Nat) (dial : Nat → Bool) : List Int :=
  (List.range (connAttemptCount retries dial)).map
    (fun k => sleepBeforeAttempt k maxBackoff)

/-! ## Transaction data model

Only the accessors that GetTransactions uses are modelled.  The metadata
field is the result of cbor.Unmarshal into Cip20Metadata with the error
ignored: msg is none when Num674.Msg is nil and some of the decoded list
otherwise (a present but empty CBOR list decodes to a non-nil empty
slice).  The certificate variants are the lcommon types matched by the
type switch, plus a catch-all for every other certificate kind. -/

/-- A Go runtime panic that the embedded code can raise. -/
inductive GoPanic
  | indexOutOfRange
deriving DecidableEq, Repr

/-- One transaction output: the bech32 address string plus the optional
stake address component. -/
structure TxOutput where
  address : String
  stakeAddress : Option String
deriving DecidableEq, Repr

/-- The certificate kinds distinguished by the classifier type switch. -/
inductive Certificate
  | stakeRegistration
  | stakeDeregistration
  | stakeDelegation
  | poolRegistration
  | poolRetirement
  | voteDelegation
  | stakeVoteDelegation
  | voteRegistrationDelegation
  | stakeVoteRegistrationDelegation
  | authCommitteeHot
  | resignCommitteeCold
  | registrationDrep
  | deregistrationDrep
  | updateDrep
  | otherKind
deriving DecidableEq, Repr

/-- The 674-label message metadata as unmarshalled into Cip20Metadata. -/
structure Cip20Metadata where
  msg : Option (List String)
deriving DecidableEq, Repr

/-- A decoded transaction, restricted to the accessors the classifier
reads. -/
structure Tx where
  metadata : Option Cip20Metadata
  outputs : List TxOutput
  certificates : Option (List Certificate)
  hash : String
deriving DecidableEq, Repr

/-! ## Classifier rule tables

Each table transcribes one switch statement of GetTransactions in the
2025 revision. -/

/-- Family 1: the switch on the first line of the 674 message. -/
def msgIcon : String → Option String
  | "Dexhunter Trade" => some "🏹"
  | "Minswap: Deposit Order" | "Minswap: Cancel Order"
  | "Minswap: Create Pool" | "Minswap: Launch Bowl Redemption"
  | "Minswap: LBE Deposit ADA" | "Minswap: Liquidity Migration"
  | "Minswap: MasterChef" | "Minswap: Order Executed"
  | "Minswap: Swap Exact In Order" | "Minswap: Swap Exact In Limit Order"
  | "Minswap: Swap Exact Out Order" | "Minswap: Swap Exact Out Limit Order"
  | "Minswap: V2 Harvest reward" | "Minswap: V2 Stake liquidity"
  | "Minswap: Withdraw Order" | "Minswap: Zap Order" => some "🐱"
  | "SSP: Swap Request" => some "🍨"
  | _ => none

/-- Family 2: the switch on each output address string. -/
def addrIcon : String → Option String
  | "addr1w8ytzffgwpf94dy20kgw72gn9ujjhqu3md34vhggenkakeszhjpl3"
  | "addr1z8ytzffgwpf94dy20kgw72gn9ujjhqu3md34vhggenkakejv7ncp3yppt0gcr50u60y43x32fgadhnl35u9hfqyql2pqr3p0j4" =>
      some "❌"
  | "addr1v8pr9mwnqarw808gtllvmlxvk70hnszrukjeqfstr9t9g5crud8c4" =>
      some "🚰"
  | "addr1w80ptp0qgmcklhmeweesqgeurtlma8fsxsr9dt8au30fzss0czhl9"
  | "addr1w92w34pys9h4h02zxdfsp8lhcvdd5t9aaln9z96szsgh73scty4aj"
  | "addr1w8q673nyx6vtcules4aqess7e9yuu6geja95xhg90hzy3wqpsjzzz"
  | "addr1wxj88juwkzmpcqacd9hua2cur2yl50kgx3tjs588c2470qc2ftfae" =>
      some "👁️ "
  | "addr1zxgx3far7qygq0k6epa0zcvcvrevmn0ypsnfsue94nsn3tvpw288a4x0xf8pxgcntelxmyclq83s0ykeehchz2wtspks905plm" =>
      some "🦛"
  | "addr1wx6htk5hfmr4dw32lhxdcp7t6xpe4jhs5fxylq90mqwnldsvr87c6"
  | "addr1wyn2aflq8ff7xaxpmqk9vz53ks28hz256tkyaj739rsvrrq3u5ft3"
  | "addr1w8arvq7j9qlrmt0wpdvpp7h4jr4fmfk8l653p9t907v2nsss7w7r4" =>
      some "💧"
  | "addr1z84q0denmyep98ph3tmzwsmw0j7zau9ljmsqx6a4rvaau66j2c79gy9l76sdg0xwhd7r0c0kna0tycz4y5s6mlenh8pq777e2a" =>
      some "🐱"
  | "addr1zywj8y96k38kye7qz329dhp0t782ykr0ev92mtz4yhv6gph8ucsr8rpyzewcf9jyf7gmjj052dednasdeznehw7aqc7q0z7vn2" =>
      some "🅾️"
  | "addr1w9d85mfr73mk8pr5erd46d7e7whcah2tzcyqd5rr4hv2amg9sxgl8"
  | "addr1xxj62lufz8se8rlr7r79ap7rwa845f4gnvm6qls85kuxpw9954lcjy0pjw878u8ut6ruxa60tgn23xeh5plq0fdcvzuq7kuswe" =>
      some "🕺"
  | "addr1wyr4uz0tp75fu8wrg6gm83t20aphuc9vt6n8kvu09ctkugqpsrmeh"
  | "addr1x94ec3t25egvhqy2n265xfhq882jxhkknurfe9ny4rl9k6dj764lvrxdayh2ux30fl0ktuh27csgmpevdu89jlxppvrst84slu"
  | "addr1x8nz307k3sr60gu0e47cmajssy4fmld7u493a4xztjrll0aj764lvrxdayh2ux30fl0ktuh27csgmpevdu89jlxppvrswgxsta"
  | "addr1wynp362vmvr8jtc946d3a3utqgclfdl5y9d3kn849e359hsskr20n" =>
      some "🌈"
  | "addr1wxaptpmxcxawvr3pzlhgnpmzz3ql43n2tc8mn3av5kx0yzs09tqh8"
  | "addr1w9qzpelu9hn45pefc0xr4ac4kdxeswq7pndul2vuj59u8tqaxdznu"
  | "addr1w9jx45flh83z6wuqypyash54mszwmdj8r64fydafxtfc6jgrw4rm3"
  | "addr1x8srqftqemf0mjlukfszd97ljuxdp44r372txfcr75wrz26rnxqnmtv3hdu2t6chcfhl2zzjh36a87nmd6dwsu3jenqsslnz7e"
  | "addr1z8ax5k9mutg07p2ngscu3chsauktmstq92z9de938j8nqal9r9z8yaghysf05atjyv79t73lercjdqnejetxm307m49qdfqcxd" =>
      some "🍨"
  | "addr1w8ll74xa05dkn69n3rmp93h8maphmms2408nt0nyruarzvqr9zf64"
  | "addr1z976yepnveus5uddth7qd66kn6cuzd7tccjd39dfdayc7lnend0q3h5twed567pu236a0sf6vfgruxgpr4rkxryyx0zqa550y7" =>
      some "🔵"
  | "addr1wxr2a8htmzuhj39y2gq7ftkpxv98y2g67tg8zezthgq4jkg0a4ul4" =>
      some "🦸"
  | _ => none

/-- Family 3: the switch on each stake address string. -/
def stakeAddrIcon : String → Option String
  | "stake1u8ffzkegp8h48mare3g3ntf3xmjce3jqptsdtj38ee3yh3c9t4uum" =>
      some "🦭"
  | _ => none

/-- Family 4: the certificate type switch, grouped into the three icon
buckets; kinds outside the three buckets match no case. -/
def certIcon : Certificate → Option String
  | .stakeRegistration | .stakeDeregistration | .stakeDelegation =>
      some "🥩"
  | .poolRegistration | .poolRetirement => some "🏊"
  | .voteDelegation | .stakeVoteDelegation | .voteRegistrationDelegation
  | .stakeVoteRegistrationDelegation | .authCommitteeHot
  | .resignCommitteeCold | .registrationDrep | .deregistrationDrep
  | .updateDrep => some "🏛️"
  | .otherKind => none

/-! ## Classifier control flow

The four families run in source order over a growing icon variable that
starts empty.  Family 1 indexes Msg at position zero whenever the list is
non-nil, so a non-nil empty list is an out-of-bounds access, modelled as
a GoPanic.  Families 2 and 3 are plain loops that overwrite the icon on
every match without breaking; family 4 breaks out of its loop at the
first matching certificate. -/

/-- Fold a rule lookup over a list, overwriting the icon at each match
and keeping it otherwise: the shape of the family 2 and family 3 loops. -/
def iconFold (f : α → Option String) (l : List α) (icon : String) : String :=
  l.foldl (fun ic a => match f a with | some i => i | none => ic) icon

/-- The rule lookup family 2 applies to one output. -/
def outputAddrIcon (o : TxOutput) : Option String := addrIcon o.address

/-- The rule lookup family 3 applies to one output: the switch runs only
when the stake address is non-nil. -/
def outputStakeIcon (o : TxOutput) : Option String :=
  match o.stakeAddress with
  | some sa => stakeAddrIcon sa
  | none => none

/-- Family 1: when metadata is present and Msg is non-nil the code reads
Msg at index zero without a bounds check. -/
def metadataStep (tx : Tx) (icon : String) : Except GoPanic String :=
  match tx.metadata with
  | none => .ok icon
  | some md =>
    match md.msg with
    | none => .ok icon
    | some [] => .error .indexOutOfRange
    | some (m :: _) =>
      .ok (match msgIcon m with | some i => i | none => icon)

/-- Family 2: loop over every output, last matching address wins. -/
def outputsStep (outs : List TxOutput) (icon : String) : String :=
  iconFold outputAddrIcon outs icon

/-- Family 3: loop over every output with a stake address. -/
def stakeStep (outs : List TxOutput) (icon : String) : String :=
  iconFold outputStakeIcon outs icon

/-- Family 4 loop body: the first certificate matching a bucket sets the
icon and breaks (the eject flag). -/
def certLoop : List Certificate → String → String
  | [], icon => icon
  | c :: rest, icon =>
    match certIcon c with
    | some i => i
    | none => certLoop rest icon

/-- Family 4: the loop runs only when Certificates() is non-nil. -/
def certStep (certs : Option (List Certificate)) (icon : String) : String :=
  match certs with
  | none => icon
  | some cs => certLoop cs icon

/-- The whole classifier: families 1 to 4 in source order. -/
def classify (tx : Tx) : Except GoPanic String := do
  let icon := ""
  let icon ← metadataStep tx icon
  let icon := outputsStep tx.outputs icon
  let icon := stakeStep tx.outputs icon
  let icon := certStep tx.certificates icon
  return icon

/-! ## Drain loop and snapshot assembly

GetTransactions repeatedly calls NextTx until it returns nil.  Each raw
transaction carries its byte length and the outcomes of the two decoding
calls.  Any NextTx or decode error makes the function return the bare
error line at once. -/

/-- One entry of the assembled slice (the Go struct txInfo). -/
structure TxInfo where
  size : Nat
  icon : String
  hash : String
deriving DecidableEq, Repr

/-- A raw transaction as returned by one NextTx call, with the results
of DetermineTransactionType and NewTransactionFromCbor. -/
structure RawTx where
  size : Nat
  txType : Except String Unit
  decoded : Except String Tx
deriving Repr

/-- The outcome of one NextTx call. -/
inductive NextTxResult
  | err (e : String)
  | sentinel
  | tx (raw : RawTx)
deriving Repr

/-- Error line returned when NextTx fails. -/
def nextTxErrLine (e : String) : String := " [red]ERROR: NextTx: " ++ e

/-- Error line returned when DetermineTransactionType fails. -/
def txTypeErrLine (e : String) : String := " [red]ERROR: TxType: " ++ e

/-- Error line returned when NewTransactionFromCbor fails. -/
def txErrLine (e : String) : String := " [red]ERROR: Tx: " ++ e

/-- Result of the drain loop: an early return with an error line, a Go
panic raised by the classifier, or the accumulated entries. -/
inductive DrainResult
  | errorReturn (line : String)
  | panic (p : GoPanic)
  | entries (txs : List TxInfo)
deriving DecidableEq, Repr

/-- The drain loop of GetTransactions over the trace of NextTx results;
an exhausted trace behaves like the nil sentinel. -/
def drainLoop : List NextTxResult → List TxInfo → DrainResult
  | [], acc => .entries acc.reverse
  | .sentinel :: _, acc => .entries acc.reverse
  | .err e :: _, _ => .errorReturn (nextTxErrLine e)
  | .tx raw :: rest, acc =>
    match raw.txType with
    | .error e => .errorReturn (txTypeErrLine e)
    | .ok _ =>
      match raw.decoded with
      | .error e => .errorReturn (txErrLine e)
      | .ok tx =>
        match classify tx with
        | .error p => .panic p
        | .ok icon => drainLoop rest (⟨raw.size, icon, tx.hash⟩ :: acc)

/-! ## Sorting, truncation and rendering -/

/-- Descending size order: the reflexive relation the sorted output of
sort.Slice satisfies when less compares sizes with strict greater-than. -/
def sizeGe (a b : TxInfo) : Prop := b.size ≤ a.size

instance : DecidableRel sizeGe := fun a b => Nat.decLe b.size a.size

instance : IsTotal TxInfo sizeGe :=
  ⟨fun a b => (Nat.le_total a.size b.size).symm⟩

instance : IsTrans TxInfo sizeGe :=
  ⟨fun _ _ _ hab hbc => Nat.le_trans hbc hab⟩

/-- Contract of the standard library call sort.Slice with the less
function of GetTransactions: the slice afterwards is a permutation of
its previous contents, sorted by size descending.  The library
documentation explicitly does not guarantee a stable sort. -/
def SortSliceSpec (sorter : List TxInfo → List TxInfo) : Prop :=
  ∀ l, (sorter l).Perm l ∧ (sorter l).Sorted sizeGe

/-- The sort stage: sorting happens only in the size sort mode. -/
def sortStep (sorter : List TxInfo → List TxInfo) (sortBy : String)
    (txs : List TxInfo) : List TxInfo :=
  if sortBy == "size" then sorter txs else txs

/-- The truncation stage: keep the first maxTx entries when more were
drained. -/
def truncStep (maxTx : Nat) (txs : List TxInfo) : List TxInfo :=
  if txs.length > maxTx then txs.take maxTx else txs

/-- The entries GetTransactions renders, after sorting and truncation. -/
def displayedTxs (sorter : List TxInfo → List TxInfo) (sortBy : String)
    (maxTx : Nat) (txs : List TxInfo) : List TxInfo :=
  truncStep maxTx (sortStep sorter sortBy txs)

/-- Left-justified padding to a rune count, the fmt minus flag. -/
def padRight (s : String) (w : Nat) : String :=
  s ++ String.mk (List.replicate (w - s.length) ' ')

/-- The header line of the transaction table. -/
def headerLine : String :=
  " [white]" ++ padRight "Size:" 10 ++ " " ++ padRight "Icon:" 10 ++ " " ++
    "TxHash:" ++ "\n"

/-- One rendered entry line: the icon column shrinks to nine cells when
an icon is present. -/
def renderTxLine (t : TxInfo) : String :=
  " [white]" ++ padRight (toString t.size) 10 ++ " " ++
    padRight t.icon (if t.icon ≠ "" then 9 else 10) ++ " [blue]" ++
    t.hash ++ "[white]\n"

/-- GetTransactions of the 2025 revision, as a function of the NextTx
trace, the active sort mode, the displayed-transactions cap and the
sort.Slice implementation: drains, classifies, sorts, truncates and
renders; an error mid-drain yields only the error line, and a classifier
panic aborts the call. -/
def GetTransactions (sorter : List TxInfo → List TxInfo) (sortBy : String)
    (maxTx : Nat) (events : List NextTxResult) : Except GoPanic String :=
  match drainLoop events [] with
  | .panic p => .error p
  | .errorReturn line => .ok line
  | .entries txs =>
    .ok (headerLine ++
      String.join ((displayedTxs sorter sortBy maxTx txs).map renderTxLine))

/-! ## Log buffer lemmas -/

/-- A single Write never leaves more than maxLines lines, whatever the
previous state was. -/
lemma logWrite_length_le (N : Nat) (l : List String) (p : String) :
    (logWrite N l p).length ≤ N := by
  simp only [logWrite]
  split
  · next h => simp only [List.length_drop]; omega
  · next h => simp only [List.length_append, List.length_singleton] at *; omega

/-- Folding Write over a list of lines from a small enough state keeps
exactly the last maxLines lines of everything written. -/
lemma logWrite_foldl (N : Nat) :
    ∀ (ws l : List String), l.length ≤ N →
      ws.foldl (logWrite N) l = (l ++ ws).drop ((l ++ ws).length - N)
  | [], l, h => by
    simp [Nat.sub_eq_zero_of_le h]
  | w :: ws, l, h => by
    rw [List.foldl_cons,
      logWrite_foldl N ws (logWrite N l w) (logWrite_length_le N l w)]
    by_cases hlen : (l ++ [w]).length > N
    · have hdef : logWrite N l w = (l ++ [w]).drop ((l ++ [w]).length - N) := by
        simp only [logWrite, if_pos hlen]
      have hsplit : (l ++ [w]).drop ((l ++ [w]).length - N) ++ ws =
          ((l ++ [w]) ++ ws).drop ((l ++ [w]).length - N) :=
        (List.drop_append_of_le_length (Nat.sub_le _ _)).symm
      rw [hdef, hsplit, List.drop_drop]
      have harr : (l ++ [w]) ++ ws = l ++ w :: ws := by simp
      rw [harr]
      have hlen' : N < l.length + 1 := by
        simpa using hlen
      congr 1
      simp only [List.length_drop, List.length_append, List.length_singleton,
        List.length_cons, List.length_nil]
      omega
    · have hdef : logWrite N l w = l ++ [w] := by
        simp only [logWrite, if_neg hlen]
      rw [hdef]
      have harr : (l ++ [w]) ++ ws = l ++ w :: ws := by simp
      rw [harr]

/-- C7: for a LogBuffer with capacity N at least 1, after any sequence of
writes starting from an empty buffer, the buffer holds exactly the last
min(M, N) written lines in write order, and every single Write preserves
the bound length at most N. -/
theorem logBuffer_keeps_last_lines (N : Nat) (ws : List String) (_ : 1 ≤ N) :
    logWriteAll N ws = ws.drop (ws.length - N) ∧
    (logWriteAll N ws).length = min ws.length N ∧
    ∀ (l : List String) (p : String), (logWrite N l p).length ≤ N := by
  have hmain : logWriteAll N ws = ws.drop (ws.length - N) := by
    simpa using logWrite_foldl N ws [] (by simp)
  refine ⟨hmain, ?_, fun l p => logWrite_length_le N l p⟩
  rw [hmain, List.length_drop]
  omega

/-- Witness for C7: capacity 3, four writes keep the last three lines. -/
theorem logBuffer_keeps_last_lines_witness :
    1 ≤ 3 ∧ logWriteAll 3 ["line1", "line2", "line3", "line4"] =
      ["line2", "line3", "line4"] :=
  ⟨by decide, by
    simpa using
      (logBuffer_keeps_last_lines 3 ["line1", "line2", "line3", "line4"]
        (by decide)).1⟩

/-! ## Pause toggle theorem -/

/-- C9: togglePaused is an involution on the paused flag, and each call
returns the new value of the flag. -/
theorem togglePaused_involution (p : Nat) :
    (togglePaused (togglePaused p).2).2 = p ∧
    (togglePaused p).1 = isPaused (togglePaused p).2 ∧
    (togglePaused (togglePaused p).2).1 =
      isPaused (togglePaused (togglePaused p).2).2 := by
  refine ⟨?_, rfl, rfl⟩
  simp [togglePaused, Nat.xor_assoc]

/-! ## Render diff gate theorem -/

/-- C6: the gate triggers exactly when the new text is non-empty and
differs byte-for-byte from the stored text, updating the stored text on
trigger and leaving it untouched otherwise; identical non-empty text
presented twice triggers once then not, and empty text never triggers. -/
theorem renderGate_spec (stored newText : String) :
    ((renderGate stored newText).1 = true ↔
      newText ≠ "" ∧ newText ≠ stored) ∧
    ((renderGate stored newText).1 = true →
      (renderGate stored newText).2 = newText) ∧
    ((renderGate stored newText).1 = false →
      (renderGate stored newText).2 = stored) ∧
    (newText ≠ "" → newText ≠ stored →
      (renderGate stored newText).1 = true ∧
      (renderGate (renderGate stored newText).2 newText).1 = false) ∧
    (renderGate stored "").1 = false ∧ (renderGate stored "").2 = stored := by
  by_cases h : newText ≠ "" ∧ newText ≠ stored
  · refine ⟨by simp [renderGate, h], ?_, ?_, ?_, ?_, ?_⟩
    · intro _; simp [renderGate, h]
    · intro hfalse; simp [renderGate, h] at hfalse
    · intro _ _
      constructor
      · simp [renderGate, h]
      · have hstep : (renderGate stored newText).2 = newText := by
          simp [renderGate, h]
        rw [hstep]
        simp [renderGate]
    · simp [renderGate]
    · simp [renderGate]
  · refine ⟨by simp [renderGate, h], ?_, ?_, ?_, ?_, ?_⟩
    · intro htrue; simp [renderGate, h] at htrue
    · intro _; simp [renderGate, h]
    · intro h1 h2; exact absurd ⟨h1, h2⟩ h
    · simp [renderGate]
    · simp [renderGate]

/-- Witness for C6: from an empty stored text, presenting the text x
twice triggers the first time and not the second. -/
theorem renderGate_spec_witness :
    (renderGate "" "x").1 = true ∧
    (renderGate (renderGate "" "x").2 "x").1 = false :=
  (renderGate_spec "" "x").2.2.2.1 (by decide) (by decide)

/-! ## Classifier lemmas -/

/-- The overwrite-on-match fold keeps the icon of the last matching
element, and the incoming icon when nothing matches. -/
lemma iconFold_eq_getLastD (f : α → Option String) :
    ∀ (l : List α) (icon : String),
      iconFold f l icon = (l.filterMap f).getLastD icon
  | [], _ => rfl
  | a :: l, icon => by
    cases hfa : f a with
    | none =>
      have hstep : iconFold f (a :: l) icon = iconFold f l icon := by
        simp [iconFold, hfa]
      rw [hstep, List.filterMap_cons, hfa]
      exact iconFold_eq_getLastD f l icon
    | some i =>
      have hstep : iconFold f (a :: l) icon = iconFold f l i := by
        simp [iconFold, hfa]
      rw [hstep, List.filterMap_cons, hfa, List.getLastD_cons]
      exact iconFold_eq_getLastD f l i

/-- The certificate loop returns the icon of the first matching
certificate, whatever follows it. -/
lemma certLoop_first_match :
    ∀ (pre : List Certificate) (c : Certificate) (rest : List Certificate)
      (icon i : String),
      (∀ x ∈ pre, certIcon x = none) → certIcon c = some i →
      certLoop (pre ++ c :: rest) icon = i
  | [], c, rest, icon, i, _, hc => by simp [certLoop, hc]
  | x :: pre, c, rest, icon, i, hpre, hc => by
    have hx : certIcon x = none := hpre x (by simp)
    simp only [List.cons_append, certLoop, hx]
    exact certLoop_first_match pre c rest icon i
      (fun y hy => hpre y (by simp [hy])) hc

/-- The certificate loop keeps the incoming icon when no certificate
matches a bucket. -/
lemma certLoop_no_match :
    ∀ (cs : List Certificate) (icon : String),
      (∀ x ∈ cs, certIcon x = none) → certLoop cs icon = icon
  | [], _, _ => rfl
  | x :: cs, icon, h => by
    have hx : certIcon x = none := h x (by simp)
    simp only [certLoop, hx]
    exact certLoop_no_match cs icon (fun y hy => h y (by simp [hy]))

/-- Family 4 keeps the incoming icon when certificates are absent or
none of them matches. -/
lemma certStep_no_match (certs : Option (List Certificate)) (icon : String)
    (h : ∀ cs, certs = some cs → ∀ x ∈ cs, certIcon x = none) :
    certStep certs icon = icon := by
  cases certs with
  | none => rfl
  | some cs => exact certLoop_no_match cs icon (h cs rfl)

/-- When family 1 finishes without panicking, the classifier is the
chain of families 2, 3 and 4 applied to its result. -/
lemma classify_ok (tx : Tx) (i : String) (h : metadataStep tx "" = .ok i) :
    classify tx =
      .ok (certStep tx.certificates
        (stakeStep tx.outputs (outputsStep tx.outputs i))) := by
  simp [classify, h]

/-- C4: a transaction matching both a metadata-message rule and a
certificate rule ends up categorised by the first matching certificate,
and the certificate scan never looks past that first match: the result is
the same for every suffix of certificates after it. -/
theorem classify_certificate_priority
    (md : Cip20Metadata) (outs : List TxOutput) (hs : String)
    (m : String) (ms : List String) (i₁ : String)
    (pre : List Certificate) (c : Certificate) (rest : List Certificate)
    (i₂ : String)
    (hmsg : md.msg = some (m :: ms))
    (hmatch : msgIcon m = some i₁)
    (hpre : ∀ x ∈ pre, certIcon x = none)
    (hc : certIcon c = some i₂) :
    classify { metadata := some md, outputs := outs,
               certificates := some (pre ++ c :: rest), hash := hs } =
      .ok i₂ ∧
    ∀ rest' : List Certificate,
      classify { metadata := some md, outputs := outs,
                 certificates := some (pre ++ c :: rest'), hash := hs } =
        .ok i₂ := by
  have key : ∀ rest' : List Certificate,
      classify { metadata := some md, outputs := outs,
                 certificates := some (pre ++ c :: rest'), hash := hs } =
        .ok i₂ := by
    intro rest'
    have hmeta : metadataStep
        { metadata := some md, outputs := outs,
          certificates := some (pre ++ c :: rest'), hash := hs } "" =
        .ok i₁ := by
      simp [metadataStep, hmsg, hmatch]
    rw [classify_ok _ _ hmeta]
    simp only [certStep]
    rw [certLoop_first_match pre c rest' _ i₂ hpre hc]
  exact ⟨key rest, key⟩

/-- Concrete transaction for the C4 witness: a Dexhunter metadata match
plus a pool-retirement certificate after a non-matching certificate. -/
def txC4 : Tx :=
  { metadata := some ⟨some ["Dexhunter Trade"]⟩,
    outputs := [],
    certificates := some [.otherKind, .poolRetirement, .stakeRegistration],
    hash := "c4hash" }

/-- Witness for C4: the pool icon wins over the metadata icon, and
dropping the certificates after the first match changes nothing. -/
theorem classify_certificate_priority_witness :
    classify txC4 = .ok "🏊" ∧
    classify { metadata := some ⟨some ["Dexhunter Trade"]⟩, outputs := [],
               certificates := some [.otherKind, .poolRetirement],
               hash := "c4hash" } = .ok "🏊" := by
  have h := classify_certificate_priority ⟨some ["Dexhunter Trade"]⟩ []
    "c4hash" "Dexhunter Trade" [] "🏹" [.otherKind] .poolRetirement
    [.stakeRegistration] "🏊" rfl rfl (by decide) rfl
  exact ⟨h.1, h.2 []⟩

/-- C5: family 2 visits every output without short-circuiting, so the
classifier result is the icon of the last matching output, regardless of
what the metadata family produced, provided families 3 and 4 do not
match. -/
theorem classify_output_last_match (tx : Tx) (i j : String)
    (hmeta : metadataStep tx "" = .ok j)
    (hlast : (tx.outputs.filterMap outputAddrIcon).getLast? = some i)
    (hstake : tx.outputs.filterMap outputStakeIcon = [])
    (hcert : ∀ cs, tx.certificates = some cs → ∀ x ∈ cs, certIcon x = none) :
    classify tx = .ok i := by
  rw [classify_ok tx j hmeta]
  rw [show outputsStep tx.outputs j = i by
    rw [outputsStep, iconFold_eq_getLastD, List.getLastD_eq_getLast?, hlast]
    rfl]
  rw [show stakeStep tx.outputs i = i by
    rw [stakeStep, iconFold_eq_getLastD, hstake]
    rfl]
  rw [certStep_no_match tx.certificates i hcert]

/-- Concrete transaction for the C5 witness: a metadata match followed by
two matching output addresses (DripDropz then Liqwid). -/
def txC5 : Tx :=
  { metadata := some ⟨some ["Dexhunter Trade"]⟩,
    outputs :=
      [{ address := "addr1v8pr9mwnqarw808gtllvmlxvk70hnszrukjeqfstr9t9g5crud8c4",
         stakeAddress := none },
       { address := "addr1wx6htk5hfmr4dw32lhxdcp7t6xpe4jhs5fxylq90mqwnldsvr87c6",
         stakeAddress := none }],
    certificates := none,
    hash := "c5hash" }

/-- Witness for C5: the last matching output (Liqwid) overrides both the
metadata icon and the earlier matching output. -/
theorem classify_output_last_match_witness : classify txC5 = .ok "💧" :=
  classify_output_last_match txC5 "💧" "🏹" rfl rfl rfl
    (fun _ h => nomatch h)

/-- Concrete transaction whose 674 metadata decodes to a non-nil empty
message list. -/
def emptyMsgTx : Tx :=
  { metadata := some ⟨some []⟩, outputs := [], certificates := none,
    hash := "c10hash" }

/-- C10 (code behavior at the failing input): with a non-nil empty
message list the classifier reads index zero out of bounds, and the whole
GetTransactions call aborts with the panic instead of producing text. -/
theorem classify_empty_msg_panics :
    classify emptyMsgTx = .error .indexOutOfRange ∧
    GetTransactions (fun l => l) "size" 100
      [.tx { size := 3, txType := .ok (), decoded := .ok emptyMsgTx }] =
      .error .indexOutOfRange :=
  ⟨rfl, rfl⟩

/-! ## Sorting stage

sort.Slice promises a sorted permutation and nothing more: its
documentation states that the sort is not guaranteed to be stable.  Both
sorters below satisfy that contract; they differ on equal-size entries. -/

/-- A contract-satisfying sorter built from insertion sort. -/
def insertSorter (l : List TxInfo) : List TxInfo :=
  List.insertionSort sizeGe l

/-- A contract-satisfying sorter that processes the slice back to front:
it reverses the relative order of equal-size entries. -/
def tieRevSorter (l : List TxInfo) : List TxInfo :=
  List.insertionSort sizeGe l.reverse

lemma insertSorter_spec : SortSliceSpec insertSorter := fun l =>
  ⟨List.perm_insertionSort sizeGe l, List.sorted_insertionSort sizeGe l⟩

lemma tieRevSorter_spec : SortSliceSpec tieRevSorter := fun l =>
  ⟨(List.perm_insertionSort sizeGe l.reverse).trans (List.reverse_perm l),
    List.sorted_insertionSort sizeGe l.reverse⟩

/-- Counterexample to C2: a sorter meeting the sort.Slice contract that,
in size mode, swaps two equal-size entries relative to their drain
order, so stability is not a property of the code. -/
theorem sortStep_not_stable :
    SortSliceSpec tieRevSorter ∧
    sortStep tieRevSorter "size"
      [{ size := 5, icon := "", hash := "aa" },
       { size := 5, icon := "", hash := "bb" }] =
      [{ size := 5, icon := "", hash := "bb" },
       { size := 5, icon := "", hash := "aa" }] ∧
    ({ size := 5, icon := "", hash := "aa" } : TxInfo) ≠
      { size := 5, icon := "", hash := "bb" } :=
  ⟨tieRevSorter_spec, by decide, by decide⟩

/-- C2 (amended): in size mode the drained entries come out sorted by
size descending as a permutation of the drain; tie order is whatever the
sort.Slice implementation produced. -/
theorem sortStep_sorted_desc (sorter : List TxInfo → List TxInfo)
    (hs : SortSliceSpec sorter) (txs : List TxInfo) :
    (sortStep sorter "size" txs).Sorted sizeGe ∧
    (sortStep sorter "size" txs).Perm txs := by
  have h := hs txs
  simpa [sortStep] using ⟨h.2, h.1⟩

/-- Witness for the amended C2 at a concrete drain. -/
theorem sortStep_sorted_desc_witness :
    SortSliceSpec insertSorter ∧
    (sortStep insertSorter "size"
      [{ size := 500, icon := "", hash := "h1" },
       { size := 1500, icon := "", hash := "h2" },
       { size := 1000, icon := "", hash := "h3" }]).Sorted sizeGe ∧
    sortStep insertSorter "size"
      [{ size := 500, icon := "", hash := "h1" },
       { size := 1500, icon := "", hash := "h2" },
       { size := 1000, icon := "", hash := "h3" }] =
      [{ size := 1500, icon := "", hash := "h2" },
       { size := 1000, icon := "", hash := "h3" },
       { size := 500, icon := "", hash := "h1" }] :=
  ⟨insertSorter_spec,
    (sortStep_sorted_desc insertSorter insertSorter_spec
      [{ size := 500, icon := "", hash := "h1" },
       { size := 1500, icon := "", hash := "h2" },
       { size := 1000, icon := "", hash := "h3" }]).1,
    by decide⟩

/-! ## Truncation stage -/

/-- The truncation stage always equals a plain take. -/
lemma truncStep_eq_take (maxTx : Nat) (txs : List TxInfo) :
    truncStep maxTx txs = txs.take maxTx := by
  unfold truncStep
  split
  · rfl
  · next h => exact (List.take_of_length_le (by omega)).symm

/-- Entries in the kept prefix of a descending-sorted list dominate the
dropped suffix. -/
lemma sorted_take_ge_drop (l : List TxInfo) (n : Nat) (h : l.Sorted sizeGe) :
    ∀ x ∈ l.take n, ∀ y ∈ l.drop n, y.size ≤ x.size := by
  have hp : List.Pairwise sizeGe (l.take n ++ l.drop n) := by
    rw [List.take_append_drop]; exact h
  exact (List.pairwise_append.1 hp).2.2

/-- C8: the rendered entry list never exceeds the configured maximum; in
size mode the kept entries dominate every dropped entry by size and
together with the dropped suffix form a permutation of the drain, and in
time mode the kept entries are exactly the earliest-drained prefix. -/
theorem getTransactions_truncation (sorter : List TxInfo → List TxInfo)
    (hs : SortSliceSpec sorter) (maxTx : Nat) (txs : List TxInfo) :
    ((displayedTxs sorter "size" maxTx txs).map renderTxLine).length ≤ maxTx ∧
    ((displayedTxs sorter "time" maxTx txs).map renderTxLine).length ≤ maxTx ∧
    displayedTxs sorter "time" maxTx txs = txs.take maxTx ∧
    (∀ x ∈ displayedTxs sorter "size" maxTx txs,
      ∀ y ∈ (sortStep sorter "size" txs).drop maxTx, y.size ≤ x.size) ∧
    (displayedTxs sorter "size" maxTx txs ++
      (sortStep sorter "size" txs).drop maxTx).Perm txs := by
  have hsort : sortStep sorter "size" txs = sorter txs := by
    simp [sortStep]
  have hdisp : displayedTxs sorter "size" maxTx txs =
      (sorter txs).take maxTx := by
    rw [displayedTxs, truncStep_eq_take, hsort]
  refine ⟨?_, ?_, ?_, ?_, ?_⟩
  · rw [List.length_map, hdisp, List.length_take]
    omega
  · rw [List.length_map, displayedTxs, truncStep_eq_take, List.length_take]
    omega
  · rw [displayedTxs, truncStep_eq_take]
    simp [sortStep]
  · rw [hdisp, hsort]
    exact sorted_take_ge_drop (sorter txs) maxTx (hs txs).2
  · rw [hdisp, hsort, List.take_append_drop]
    exact (hs txs).1

/-- Witness for C8: the three-transaction scenario with a cap of two in
size mode keeps the 1500- and 1000-byte entries and drops the 500-byte
one. -/
theorem getTransactions_truncation_witness :
    SortSliceSpec insertSorter ∧
    displayedTxs insertSorter "size" 2
      [{ size := 500, icon := "", hash := "h1" },
       { size := 1500, icon := "", hash := "h2" },
       { size := 1000, icon := "", hash := "h3" }] =
      [{ size := 1500, icon := "", hash := "h2" },
       { size := 1000, icon := "", hash := "h3" }] ∧
    ((displayedTxs insertSorter "size" 2
      [{ size := 500, icon := "", hash := "h1" },
       { size := 1500, icon := "", hash := "h2" },
       { size := 1000, icon := "", hash := "h3" }]).map renderTxLine).length ≤ 2 :=
  ⟨insertSorter_spec, by decide,
    (getTransactions_truncation insertSorter insertSorter_spec 2
      [{ size := 500, icon := "", hash := "h1" },
       { size := 1500, icon := "", hash := "h2" },
       { size := 1000, icon := "", hash := "h3" }]).1⟩

/-! ## Error handling mid-drain -/

/-- An event that the drain loop processes without returning early:
NextTx yields bytes, both decode calls succeed and the classifier does
not panic. -/
def eventOk : NextTxResult → Bool
  | .tx raw =>
    match raw.txType, raw.decoded with
    | .ok _, .ok tx =>
      match classify tx with
      | .ok _ => true
      | .error _ => false
    | _, _ => false
  | _ => false

/-- The error line an event makes GetTransactions return early with, if
any. -/
def failLine : NextTxResult → Option String
  | .err e => some (nextTxErrLine e)
  | .sentinel => none
  | .tx raw =>
    match raw.txType with
    | .error e => some (txTypeErrLine e)
    | .ok _ =>
      match raw.decoded with
      | .error e => some (txErrLine e)
      | .ok _ => none

/-- After any run of fully processed events, a failing event makes the
drain loop return exactly its error line, discarding the accumulator. -/
lemma drainLoop_error :
    ∀ (good : List NextTxResult) (bad : NextTxResult)
      (rest : List NextTxResult) (line : String) (acc : List TxInfo),
      (∀ ev ∈ good, eventOk ev = true) → failLine bad = some line →
      drainLoop (good ++ bad :: rest) acc = .errorReturn line
  | [], bad, rest, line, acc, _, hbad => by
    cases bad with
    | err e =>
      simp only [failLine, Option.some_inj] at hbad
      simp [drainLoop, hbad]
    | sentinel => simp [failLine] at hbad
    | tx raw =>
      cases htype : raw.txType with
      | error e =>
        simp only [failLine, htype, Option.some_inj] at hbad
        simp [drainLoop, htype, hbad]
      | ok u =>
        cases hdec : raw.decoded with
        | error e =>
          simp only [failLine, htype, hdec, Option.some_inj] at hbad
          simp [drainLoop, htype, hdec, hbad]
        | ok tx => simp [failLine, htype, hdec] at hbad
  | ev :: good, bad, rest, line, acc, hgood, hbad => by
    have hev : eventOk ev = true := hgood ev (by simp)
    cases ev with
    | err e => simp [eventOk] at hev
    | sentinel => simp [eventOk] at hev
    | tx raw =>
      cases htype : raw.txType with
      | error e => simp [eventOk, htype] at hev
      | ok u =>
        cases hdec : raw.decoded with
        | error e => simp [eventOk, htype, hdec] at hev
        | ok tx =>
          cases hcls : classify tx with
          | error p => simp [eventOk, htype, hdec, hcls] at hev
          | ok icon =>
            have hstep : drainLoop ((NextTxResult.tx raw :: good) ++ bad :: rest) acc =
                drainLoop (good ++ bad :: rest)
                  (⟨raw.size, icon, tx.hash⟩ :: acc) := by
              simp [drainLoop, htype, hdec, hcls]
            rw [hstep]
            exact drainLoop_error good bad rest line _
              (fun y hy => hgood y (by simp [hy])) hbad

/-- C3 (amended): a NextTx or decode failure mid-drain aborts the cycle
and GetTransactions returns only the bare error line; the entries
successfully decoded before the failure are discarded, whatever follows
the failing event. -/
theorem getTransactions_error_discards_entries
    (good : List NextTxResult) (bad : NextTxResult)
    (rest : List NextTxResult) (line : String)
    (sorter : List TxInfo → List TxInfo) (sortBy : String) (maxTx : Nat)
    (hgood : ∀ ev ∈ good, eventOk ev = true)
    (hbad : failLine bad = some line) :
    GetTransactions sorter sortBy maxTx (good ++ bad :: rest) = .ok line := by
  unfold GetTransactions
  rw [drainLoop_error good bad rest line [] hgood hbad]

/-- A transaction that decodes fine and matches no rule. -/
def plainTx : Tx :=
  { metadata := none, outputs := [], certificates := none,
    hash := "deadbeef" }

/-- A successfully decoded drain event carrying plainTx. -/
def okEvent : NextTxResult :=
  .tx { size := 3, txType := .ok (), decoded := .ok plainTx }

/-- Counterexample to C3: one transaction decodes successfully, then
NextTx fails; the result is the bare error line, which does not contain
the decoded entry (its hash never appears in the output). -/
theorem getTransactions_no_partial_result :
    GetTransactions (fun l => l) "size" 100 [okEvent, .err "EOF"] =
      .ok (nextTxErrLine "EOF") ∧
    nextTxErrLine "EOF" = " [red]ERROR: NextTx: EOF" ∧
    ¬ ("deadbeef".data <:+: (nextTxErrLine "EOF").data) :=
  ⟨rfl, rfl, by decide⟩

/-- Witness for the amended C3 at the same concrete drain. -/
theorem getTransactions_error_discards_entries_witness :
    (∀ ev ∈ [okEvent], eventOk ev = true) ∧
    GetTransactions (fun l => l) "size" 100 [okEvent, .err "EOF"] =
      .ok (nextTxErrLine "EOF") :=
  ⟨by decide,
    getTransactions_error_discards_entries [okEvent] (.err "EOF") [] _
      (fun l => l) "size" 100 (by decide) rfl⟩

/-! ## Backoff schedule theorems -/

/-- Values already inside the int64 range are unchanged by wrapping. -/
lemma wrap64_eq_self (n : Int) (h0 : 0 ≤ n) (h : n < 2 ^ 63) :
    wrap64 n = n := by
  unfold wrap64
  rw [Int.emod_eq_of_lt (by omega) (by omega)]
  omega

/-- For attempts up to 33 the exponential nanosecond duration fits in an
int64. -/
lemma pow_mul_ns_lt (k : Nat) (hk : k ≤ 33) :
    (2 : Int) ^ k * nsPerSecond < 2 ^ 63 := by
  have h1 : (2 : Int) ^ k ≤ 2 ^ 33 := pow_le_pow_right₀ (by norm_num) hk
  have h2 : (2 : Int) ^ k * nsPerSecond ≤ 2 ^ 33 * nsPerSecond := by
    have : (0 : Int) < nsPerSecond := by norm_num [nsPerSecond]
    exact mul_le_mul_of_nonneg_right h1 (le_of_lt this)
  calc (2 : Int) ^ k * nsPerSecond ≤ 2 ^ 33 * nsPerSecond := h2
    _ < 2 ^ 63 := by norm_num [nsPerSecond]

/-- C1 (amended): for retry attempts k between 1 and the configured
retry count with k at most 33, the sleep before attempt k is exactly
min(2 to the k seconds, MaxBackoff seconds), no sleep precedes attempt 0,
and the GetConnection sleep trace agrees; for larger k the int64
nanosecond computation overflows and the equality fails. -/
theorem backoff_delay_capped (k retries maxBackoff : Nat) (dial : Nat → Bool)
    (hk1 : 1 ≤ k) (_hkr : k ≤ retries) (hk33 : k ≤ 33)
    (hmb : maxBackoff < 2 ^ 32) :
    sleepBeforeAttempt k maxBackoff =
      min ((2 : Int) ^ k * nsPerSecond) ((maxBackoff : Int) * nsPerSecond) ∧
    sleepBeforeAttempt 0 maxBackoff = 0 ∧
    (k < connAttemptCount retries dial →
      (connSleeps retries maxBackoff dial)[k]? =
        some (min ((2 : Int) ^ k * nsPerSecond)
          ((maxBackoff : Int) * nsPerSecond))) ∧
    (connSleeps retries maxBackoff dial)[0]? = some 0 := by
  have hns : (0 : Int) < nsPerSecond := by norm_num [nsPerSecond]
  have hpow : (0 : Int) ≤ (2 : Int) ^ k * nsPerSecond :=
    mul_nonneg (pow_nonneg (by norm_num) k) (le_of_lt hns)
  have hmbns : (0 : Int) ≤ (maxBackoff : Int) * nsPerSecond :=
    mul_nonneg (Int.natCast_nonneg maxBackoff) (le_of_lt hns)
  have hmblt : (maxBackoff : Int) * nsPerSecond < 2 ^ 63 := by
    have h1 : (maxBackoff : Int) < 2 ^ 32 := by exact_mod_cast hmb
    calc (maxBackoff : Int) * nsPerSecond
        ≤ 2 ^ 32 * nsPerSecond := by
          exact mul_le_mul_of_nonneg_right (le_of_lt h1) (le_of_lt hns)
      _ < 2 ^ 63 := by norm_num [nsPerSecond]
  have hshift : goDurOne k = (2 : Int) ^ k := by
    rw [goDurOne, if_pos (by omega : k < 64)]
    exact wrap64_eq_self _ (pow_nonneg (by norm_num) k)
      (lt_of_le_of_lt (pow_le_pow_right₀ (by norm_num) hk33) (by norm_num))
  have hmain : sleepBeforeAttempt k maxBackoff =
      min ((2 : Int) ^ k * nsPerSecond) ((maxBackoff : Int) * nsPerSecond) := by
    rw [sleepBeforeAttempt, if_neg (by omega : ¬ k = 0), backoffDelay, hshift,
      wrap64_eq_self _ hpow (pow_mul_ns_lt k hk33),
      wrap64_eq_self _ hmbns hmblt, goSleep]
    exact max_eq_right (le_min hpow hmbns)
  have hcount : 0 < connAttemptCount retries dial := by
    unfold connAttemptCount
    split <;> omega
  refine ⟨hmain, by simp [sleepBeforeAttempt], ?_, ?_⟩
  · intro hk
    rw [connSleeps]
    simp only [List.getElem?_map, List.getElem?_range, hk]
    simp [hmain]
  · rw [connSleeps]
    simp only [List.getElem?_map, List.getElem?_range, hcount]
    simp [sleepBeforeAttempt]

/-- Witness for C1 at the default configuration: before attempt 3 of a
never-succeeding dial with MaxBackoff 30 the loop sleeps 8 seconds. -/
theorem backoff_delay_capped_witness :
    (1 ≤ 3 ∧ 3 ≤ 3 ∧ 3 ≤ 33 ∧ 30 < 2 ^ 32) ∧
    sleepBeforeAttempt 3 30 = 8 * nsPerSecond ∧
    (connSleeps 3 30 (fun _ => false))[3]? = some (8 * nsPerSecond) ∧
    (connSleeps 3 30 (fun _ => false))[0]? = some 0 := by
  have h := backoff_delay_capped 3 3 30 (fun _ => false)
    (by decide) (by decide) (by decide) (by norm_num)
  have hcnt : 3 < connAttemptCount 3 (fun _ => false) := by decide
  refine ⟨⟨by decide, by decide, by decide, by norm_num⟩, ?_, ?_, h.2.2.2⟩
  · rw [h.1]; norm_num [nsPerSecond]
  · rw [h.2.2.1 hcnt]; norm_num [nsPerSecond]

/-- Counterexample to C1: at attempt 34 (a legal retry index when the
configured retry count is 34) the claimed delay is the 30 second cap, but
the int64 nanosecond computation overflows to a negative duration and the
code sleeps 0. -/
theorem backoff_overflow :
    sleepBeforeAttempt 34 30 = 0 ∧
    min ((2 : Int) ^ 34 * nsPerSecond) ((30 : Int) * nsPerSecond) =
      30 * nsPerSecond ∧
    sleepBeforeAttempt 34 30 ≠
      min ((2 : Int) ^ 34 * nsPerSecond) ((30 : Int) * nsPerSecond) ∧
    (1 ≤ 34 ∧ 34 ≤ 34) ∧
    (connSleeps 34 30 (fun _ => false))[34]? = some 0 := by
  refine ⟨by decide, by norm_num [nsPerSecond], ?_, ⟨by decide, by decide⟩, by decide⟩
  intro h
  rw [show sleepBeforeAttempt 34 30 = 0 by decide] at h
  rw [show min ((2 : Int) ^ 34 * nsPerSecond) ((30 : Int) * nsPerSecond) =
    30 * nsPerSecond by norm_num [nsPerSecond]] at h
  norm_num [nsPerSecond] at h

end Txtop
